import Mathlib

/-
Verification of the agentAru routing / tool-execution core.

Shallow embedding of the repository's glue code:
  * src/core/state.py            — the `AgentState` record threaded through every turn
  * src/memory/memory_manager.py — `AgentMemoryManager` (degraded mode, search, decay)
  * src/agents/supervisor_agent.py — `SupervisorAgent.process` (routing decision)
  * src/agents/calendar_agent.py — `CalendarAgent.process` (turn processor)
  * src/mcp_integration/client.py — `MCPClient.call_tool`, `disconnect_server`
  * src/mcp_integration/tool_manager.py — wrapper `_arun`, registry, `execute_tool`
  * run_agent.py                 — the agentic tool loop with its iteration cap

External collaborators (the LLM endpoint, the mem0 backend, the MCP session
transport) are modelled as explicit function / `Except`-valued parameters:
a Python exception escaping such a collaborator is an `Except.error`, and the
repository code that catches it is translated to the corresponding `match`.
-/

namespace AgentAru

/-- A tool-call request as produced by the model (name + argument mapping + call id),
mirroring the dicts in `response.tool_calls` consumed by run_agent.py. -/
structure ToolCall where
  name : String
  args : List (String × String)
  id : String
deriving DecidableEq, Repr

/-- LangChain message roles used by the repository: HumanMessage, SystemMessage,
AIMessage (which may carry tool calls) and ToolMessage (correlated by call id). -/
inductive Message where
  | human (content : String)
  | system (content : String)
  | ai (content : String) (tool_calls : List ToolCall)
  | tool (content : String) (tool_call_id : String)
deriving DecidableEq, Repr

/-- The `metadata["timestamp"]` field of a memory record, as seen by
`AgentMemoryManager._apply_decay`: missing (or falsy), present but not ISO-parseable
(`datetime.fromisoformat` raises), or parseable with `(now - timestamp).days = daysOld`. -/
inductive TimestampField where
  | absent
  | malformed (raw : String)
  | valid (daysOld : ℤ)
deriving DecidableEq, Repr

/-- A memory record as handled by memory_manager.py: the `memory` text, the
`metadata["type"]` tag, the metadata timestamp, and the mutable `score` /
`decay_factor` entries (absent keys are `none`; `score` defaults to 1.0 inside
`_apply_decay` and to 0 in the sort key of `search_memories`). -/
structure MemRecord where
  memory : String
  mtype : Option String
  timestamp : TimestampField
  score : Option ℚ
  decay_factor : Option ℚ
deriving DecidableEq, Repr

/-- A per-domain result slot, e.g. `state["calendar_results"] = {"status": ..., "message": ...}`. -/
structure AgentResult where
  status : String
  message : String
deriving DecidableEq, Repr

/-- `AgentState` from src/core/state.py (the TypedDict threaded through the graph).
The `datetime` metadata field is modelled as an opaque integer. -/
structure AgentState where
  messages : List Message
  current_task : String
  user_query : String
  relevant_memories : List MemRecord
  episodic_context : String
  semantic_context : String
  next_agent : String
  agent_history : List String
  email_results : Option AgentResult
  calendar_results : Option AgentResult
  idea_results : Option AgentResult
  timestamp : ℤ
  user_id : String
  session_id : String
  errors : List String
  retry_count : ℤ
deriving DecidableEq, Repr

/-! ## Memory manager (src/memory/memory_manager.py) -/

/-- `AgentMemoryManager` configuration: whether `Memory.from_config` succeeded
(`self.memory` is non-None), and the decay settings read from `self.config`
(`decay_days` default 90, `relevance_threshold` default 0.3). -/
structure AgentMemoryManager where
  memory_available : Bool
  decay_days : ℚ
  relevance_threshold : ℚ
deriving DecidableEq, Repr

namespace AgentMemoryManager

/-- The decay factor computed at memory_manager.py:202:
`decay_factor = max(0.1, 1 - (days_old / self.decay_days))`. -/
def decayFactor (decay_days : ℚ) (days_old : ℤ) : ℚ :=
  max (1/10) (1 - (days_old : ℚ) / decay_days)

/-- `AgentMemoryManager._apply_decay` (memory_manager.py:186-216).  The loop keeps
records without a (parseable) timestamp unchanged, otherwise multiplies the score
(default 1.0) by the decay factor and keeps the record iff the decayed score is
at least `relevance_threshold`.  `decay_days = 0` makes the division raise a
`ZeroDivisionError`, which the surrounding `except` turns into "append unchanged". -/
def _apply_decay (mgr : AgentMemoryManager) : List MemRecord → List MemRecord
  | [] => []
  | memory :: rest =>
    match memory.timestamp with
    | .absent => memory :: mgr._apply_decay rest
    | .malformed _ => memory :: mgr._apply_decay rest
    | .valid days_old =>
      if mgr.decay_days = 0 then
        memory :: mgr._apply_decay rest
      else
        let f := decayFactor mgr.decay_days days_old
        let s := memory.score.getD 1 * f
        if mgr.relevance_threshold ≤ s then
          { memory with score := some s, decay_factor := some f } :: mgr._apply_decay rest
        else
          mgr._apply_decay rest

/-- Sort key used at memory_manager.py:177: `x.get("score", 0)`. -/
def scoreKey (r : MemRecord) : ℚ := r.score.getD 0

/-- Stable descending insertion used to model Python's
`sorted(results, key=lambda x: x.get("score", 0), reverse=True)`: the inserted
record precedes the later records of equal score (`r` comes from earlier in the
original list than everything in the sorted tail), so ties keep their original
relative order, as Python's stable sort does under `reverse=True`. -/
def insertByScoreDesc (r : MemRecord) : List MemRecord → List MemRecord
  | [] => [r]
  | x :: xs => if scoreKey r < scoreKey x then x :: insertByScoreDesc r xs else r :: x :: xs

/-- Stable descending sort by score, modelling the `sorted(..., reverse=True)` call. -/
def sortByScoreDesc : List MemRecord → List MemRecord
  | [] => []
  | x :: xs => insertByScoreDesc x (sortByScoreDesc xs)

/-- `AgentMemoryManager.search_memories` (memory_manager.py:143-184).
`backend` is the result of the external `self.memory.search(...)` call
(`Except.error` when it raises; the surrounding `except` returns `[]`). -/
def search_memories (mgr : AgentMemoryManager)
    (backend : Except String (List MemRecord))
    (memory_type : Option String) (limit : ℕ) (apply_decay : Bool) : List MemRecord :=
  if mgr.memory_available = false then []
  else
    match backend with
    | .error _ => []
    | .ok results =>
      let results := match memory_type with
        | some t => results.filter (fun r => r.mtype = some t)
        | none => results
      let results := if apply_decay then mgr._apply_decay results else results
      (sortByScoreDesc results).take limit

/-- `AgentMemoryManager.add_interaction` (memory_manager.py:61-89).
`backend` is the result of the external `self.memory.add(...)` call; when the
memory handle is `None` the method returns `""` before reaching the backend,
and a backend failure is caught and also yields `""`. -/
def add_interaction (mgr : AgentMemoryManager)
    (backend : Except String String)
    (_messages : List Message) (_metadata : List (String × String)) : String :=
  if mgr.memory_available = false then ""
  else
    match backend with
    | .ok result => result
    | .error _ => ""

end AgentMemoryManager

/-! ## Supervisor agent (src/agents/supervisor_agent.py) -/

namespace SupervisorAgent

/-- The fixed routing vocabulary at supervisor_agent.py:85. -/
def valid_agents : List String := ["email_agent", "calendar_agent", "idea_agent", "end"]

/-- `SupervisorAgent.process` (supervisor_agent.py:60-105).
`memories` is the result of `self.memory_manager.search_memories(...)` (which
catches its own failures and always returns a list); `llm` is the outcome of the
`self.chain.invoke(...)` round-trip, the only statement in the `try` block that
can raise.  The `except Exception` branch appends a tagged error string and sets
the decision to "end" without touching any other field. -/
def process (memories : List MemRecord) (llm : Except String String)
    (state : AgentState) : AgentState :=
  match llm with
  | .error e =>
    { state with
        errors := state.errors ++ ["Supervisor error: " ++ e],
        next_agent := "end" }
  | .ok content =>
    let decision := content.trim.toLower
    let decision := if decision ∈ valid_agents then decision else "end"
    { state with
        next_agent := decision,
        agent_history := state.agent_history ++ ["supervisor"],
        relevant_memories := memories,
        messages := state.messages ++ [Message.ai ("Routing to: " ++ decision) []] }

end SupervisorAgent

/-! ## Calendar agent (src/agents/calendar_agent.py) -/

namespace CalendarAgent

/-- `CalendarAgent.process` (calendar_agent.py:20-55).
`calendar_prefs` is the (non-raising) memory lookup result, `llm` the outcome of
`self.llm.invoke(...)` — the only raising statement inside the `try` block, which
runs before any state mutation.  On success the result slot, history, message
list and routing decision are all written; on failure only the error list and
the routing decision change. -/
def process (_calendar_prefs : List MemRecord) (llm : Except String String)
    (state : AgentState) : AgentState :=
  match llm with
  | .error e =>
    { state with
        errors := state.errors ++ ["Calendar agent error: " ++ e],
        next_agent := "" }
  | .ok content =>
    { state with
        calendar_results := some { status := "processed", message := content },
        agent_history := state.agent_history ++ ["calendar_agent"],
        messages := state.messages ++ [Message.ai content []],
        next_agent := "" }

end CalendarAgent

/-! ## Agentic tool loop (run_agent.py:106-140) -/

/-- A model response as consumed by run_agent.py: the text plus the
(`possibly empty`) list of requested tool calls. -/
structure LLMResponse where
  content : String
  tool_calls : List ToolCall
deriving DecidableEq, Repr

namespace RunAgent

/-- The `ToolMessage` appended for one tool call (run_agent.py:121-136):
the stringified tool result on success, or the `Error executing {name}: {e}`
text when `mcp_manager.execute_tool` raises. -/
def toolResultMessage (execTool : String → List (String × String) → Except String String)
    (tc : ToolCall) : Message :=
  match execTool tc.name tc.args with
  | .ok result => Message.tool result tc.id
  | .error e => Message.tool ("Error executing " ++ tc.name ++ ": " ++ e) tc.id

/-- The `for iteration in range(max_iterations)` loop of run_agent.py:109-140.
`llm` maps the current message history to the next model response
(`llm_with_tools.invoke(messages)`); `fuel` is the number of remaining
iterations; `last` is the `response` variable from the enclosing scope (set by
earlier iterations, `none` before the first).  Returns the list of model
responses consumed (one per round-trip) and the text printed as the turn's
answer — the response content at the `break`, or, via the `for ... else` branch,
the last response's content (empty when no response was ever produced). -/
def agentLoop (llm : List Message → LLMResponse)
    (execTool : String → List (String × String) → Except String String) :
    ℕ → List Message → Option LLMResponse → List LLMResponse × String
  | 0, _, last =>
    ([], match last with
         | some r => r.content
         | none => "")
  | fuel + 1, messages, _ =>
    let r := llm messages
    let messages := messages ++ [Message.ai r.content r.tool_calls]
    if r.tool_calls = [] then
      ([r], r.content)
    else
      let messages := messages ++ r.tool_calls.map (toolResultMessage execTool)
      let rest := agentLoop llm execTool fuel messages (some r)
      (r :: rest.1, rest.2)

/-- `max_iterations = 5` (run_agent.py:107). -/
def max_iterations : ℕ := 5

/-- One user turn of `run_interactive` (run_agent.py:104-140): seed the history
with the user's message and run the agentic loop with the iteration cap. -/
def run_turn (llm : List Message → LLMResponse)
    (execTool : String → List (String × String) → Except String String)
    (user_input : String) : List LLMResponse × String :=
  agentLoop llm execTool max_iterations [Message.human user_input] none

end RunAgent

/-! ## MCP client (src/mcp_integration/client.py) -/

/-- One content segment of an MCP tool result, after the normalization at
client.py:168-185 (`TextContent` / `ImageContent` / `EmbeddedResource`;
any other segment type is dropped by the `isinstance` chain). -/
inductive ContentItem where
  | text (t : String)
  | image (data : String) (mimeType : String)
  | resource (r : String)
deriving DecidableEq, Repr

/-- The value produced by the external `session.call_tool(...)` when it does not
raise: either an object with a `content` attribute (a list of segments plus the
`isError` flag), or any other object (taken through the
`{"success": True, "result": result}` branch; `raw` stands for its `str(...)`). -/
inductive SessionResult where
  | withContent (content : List ContentItem) (isError : Bool)
  | plain (raw : String)
deriving DecidableEq, Repr

/-- The dict returned by `MCPClient.call_tool` (client.py:158-200):
`{"success": True, "content": ..., "isError": ...}`, `{"success": True, "result": ...}`,
or `{"success": False, "error": ...}` when the session call raised. -/
inductive ToolCallResult where
  | ok_content (content : List ContentItem) (isError : Bool)
  | ok_plain (raw : String)
  | err (error : String)
deriving DecidableEq, Repr

/-- The behaviour of the live MCP session transport:
`session server_name tool_name arguments` is the outcome of
`session.call_tool(tool_name, arguments)` on that server's session
(`Except.error` when it raises). -/
abbrev SessionFn := String → String → List (String × String) → Except String SessionResult

/-- An `mcp.types.Tool` descriptor cached by the client (name, optional
description, optional input schema). -/
structure MCPToolDesc where
  name : String
  description : Option String
  inputSchema : Option (List (String × String))
deriving DecidableEq, Repr

/-- `MCPClient` connection state: the keys of `self.sessions` (the connected
server names) and the cached `self.tools` mapping.  The session handles
themselves are external and live behind `SessionFn`. -/
structure MCPClient where
  sessions : List String
  tools : List (String × List MCPToolDesc)
deriving DecidableEq, Repr

/-- First-match association-list lookup, modelling a Python dict read
(`d[k]` / `d.get(k)` — keys are unique in a dict, so first match is the match). -/
def lookupAssoc {α : Type} (l : List (String × α)) (k : String) : Option α :=
  (l.find? (fun p => p.1 == k)).map Prod.snd

/-- Python dict assignment `d[k] = v` on an insertion-ordered association list:
replace the value in place when the key exists, append at the end otherwise. -/
def setAssoc {α : Type} : List (String × α) → String → α → List (String × α)
  | [], k, v => [(k, v)]
  | p :: rest, k, v => if p.1 = k then (k, v) :: rest else p :: setAssoc rest k v

namespace MCPClient

/-- `MCPClient.list_tools` (client.py:117-134): cached descriptors of one server
(`self.tools.get(server_name, [])`), or of all servers concatenated. -/
def list_tools (c : MCPClient) (server_name : Option String) : List MCPToolDesc :=
  match server_name with
  | some sn => (lookupAssoc c.tools sn).getD []
  | none => (c.tools.map Prod.snd).flatten

/-- `MCPClient.call_tool` (client.py:136-200).  When `server_name` is not a key
of `self.sessions` the method raises `ValueError(f"Not connected to server: ...")`
before touching the session; otherwise the session call runs inside a `try`
whose `except` converts a raised exception into the `success: False` dict. -/
def call_tool (c : MCPClient) (session : SessionFn)
    (server_name : String) (tool_name : String)
    (arguments : List (String × String)) : Except String ToolCallResult :=
  if server_name ∈ c.sessions then
    .ok (match session server_name tool_name arguments with
         | .error e => .err e
         | .ok (.withContent items isError) => .ok_content items isError
         | .ok (.plain raw) => .ok_plain raw)
  else
    .error ("Not connected to server: " ++ server_name)

/-- `MCPClient.disconnect_server` (client.py:94-115).  `exit_ok` records whether
the two `__aexit__` calls succeed; when one of them raises, the `except` branch
skips the `del self.sessions[...]` / `del self.tools[...]` statements and the
server name stays in the session map. -/
def disconnect_server (c : MCPClient) (exit_ok : Bool) (server_name : String) : MCPClient :=
  if server_name ∈ c.sessions then
    if exit_ok then
      { sessions := c.sessions.filter (fun s => s ≠ server_name),
        tools := c.tools.filter (fun p => p.1 ≠ server_name) }
    else c
  else c

end MCPClient

/-! ## MCP tool manager (src/mcp_integration/tool_manager.py) -/

/-- `MCPToolWrapper` (tool_manager.py:18-59): the LangChain wrapper data
(the executor `_arun` is the function `MCPToolWrapper.arun` below). -/
structure MCPToolWrapper where
  name : String
  description : String
  server_name : String
  tool_name : String
  input_schema : List (String × String)
deriving DecidableEq, Repr

namespace MCPToolWrapper

/-- Text extraction at tool_manager.py:46-51: collect the `text` of the
`type == "text"` segments and join them with newlines. -/
def extractText (items : List ContentItem) : String :=
  String.intercalate "\n"
    (items.filterMap (fun item =>
      match item with
      | .text t => some t
      | _ => none))

/-- `MCPToolWrapper._arun` (tool_manager.py:35-59): call the client, and map the
result dict to a text.  The surrounding `try` catches anything the client call
raises (for instance the not-connected `ValueError`) and returns `Error: {e}`;
a `success: False` dict becomes `Error: {error}`. -/
def arun (t : MCPToolWrapper) (c : MCPClient) (session : SessionFn)
    (arguments : List (String × String)) : String :=
  match c.call_tool session t.server_name t.tool_name arguments with
  | .error e => "Error: " ++ e
  | .ok (.ok_content items _) => extractText items
  | .ok (.ok_plain raw) => raw
  | .ok (.err e) => "Error: " ++ e

end MCPToolWrapper

/-- `MCPToolManager` state: `self.tools_registry`, a dict from server name to
the list of registered LangChain wrappers. -/
structure MCPToolManager where
  tools_registry : List (String × List MCPToolWrapper)
deriving DecidableEq, Repr

namespace MCPToolManager

/-- `mcp_tool.description or f"MCP tool: {name}"` — Python `or` also replaces
the empty string. -/
def descOrDefault (d : Option String) (tool_name : String) : String :=
  match d with
  | some s => if s = "" then "MCP tool: " ++ tool_name else s
  | none => "MCP tool: " ++ tool_name

/-- `MCPToolManager.register_server_tools` (tool_manager.py:69-116): wrap every
descriptor cached by the client for `server_name` (optionally prefixing the
exposed name) and overwrite the registry entry for that server
(`self.tools_registry[server_name] = langchain_tools`).  `pre = none` models a
falsy `prefix` argument.  Nothing inside the `try` raises for a connected
server, so the `except`-returns-`[]` branch is unreachable here. -/
def register_server_tools (m : MCPToolManager) (c : MCPClient)
    (server_name : String) (pre : Option String) :
    MCPToolManager × List MCPToolWrapper :=
  let mcp_tools := c.list_tools (some server_name)
  let langchain_tools := mcp_tools.map (fun t =>
    { name := match pre with
              | some p => p ++ "_" ++ t.name
              | none => t.name,
      description := descOrDefault t.description t.name,
      server_name := server_name,
      tool_name := t.name,
      input_schema := t.inputSchema.getD [] })
  ({ tools_registry := setAssoc m.tools_registry server_name langchain_tools },
   langchain_tools)

/-- `MCPToolManager.get_tools` (tool_manager.py:118-145). -/
def get_tools (m : MCPToolManager) (server_name : Option String)
    (tool_names : Option (List String)) : List MCPToolWrapper :=
  let tools := match server_name with
    | some sn => (lookupAssoc m.tools_registry sn).getD []
    | none => (m.tools_registry.map Prod.snd).flatten
  match tool_names with
  | some names => tools.filter (fun t => names.contains t.name)
  | none => tools

/-- `MCPToolManager.get_tool_by_name` (tool_manager.py:147-153): first wrapper
with a matching exposed name across all servers. -/
def get_tool_by_name (m : MCPToolManager) (tool_name : String) : Option MCPToolWrapper :=
  (m.get_tools none none).find? (fun t => t.name == tool_name)

/-- `MCPToolManager.execute_tool` (tool_manager.py:170-186): missing tool →
error-tagged text, found tool → run its `_arun` (which is total: it catches its
own failures), with the outer `except` as a second belt that our total model
never needs. -/
def execute_tool (m : MCPToolManager) (c : MCPClient) (session : SessionFn)
    (tool_name : String) (arguments : List (String × String)) : String :=
  match m.get_tool_by_name tool_name with
  | none => "Error: Tool \'" ++ tool_name ++ "\' not found"
  | some t => t.arun c session arguments

end MCPToolManager

/-! ## Concrete sample data used to instantiate the theorems -/

/-- A manager with the default decay settings (`decay_days = 90`,
`relevance_threshold = 0.3`) and a working backend. -/
def defaultMemoryManager : AgentMemoryManager :=
  { memory_available := true, decay_days := 90, relevance_threshold := 3/10 }

/-- Scenario D of the spec: a record 100 days old with base score 1.0. -/
def scenarioD : MemRecord :=
  { memory := "scenario D", mtype := none, timestamp := .valid 100,
    score := some 1, decay_factor := none }

/-- A record with negative base score, aged 0 days. -/
def cexYounger : MemRecord :=
  { memory := "cex", mtype := none, timestamp := .valid 0,
    score := some (-1), decay_factor := none }

/-- A record with the same negative base score, aged 45 days. -/
def cexOlder : MemRecord :=
  { memory := "cex", mtype := none, timestamp := .valid 45,
    score := some (-1), decay_factor := none }

/-- A record with base score 1.0, aged 0 days. -/
def cexPosYounger : MemRecord :=
  { memory := "cex", mtype := none, timestamp := .valid 0,
    score := some 1, decay_factor := none }

/-- A record with base score 1.0, aged 45 days. -/
def cexPosOlder : MemRecord :=
  { memory := "cex", mtype := none, timestamp := .valid 45,
    score := some 1, decay_factor := none }

/-- Decay window 90 with a threshold low enough to keep every record. -/
def cexManager : AgentMemoryManager :=
  { memory_available := true, decay_days := 90, relevance_threshold := -100 }

/-- A (configurable) negative decay window, with the same low threshold. -/
def cexManagerNegWindow : AgentMemoryManager :=
  { memory_available := true, decay_days := -90, relevance_threshold := -100 }

/-- A sample fresh-turn state, as built by `AgentAruGraph.run` (agent_graph.py:191-208). -/
def sampleState : AgentState :=
  { messages := [Message.human "What can you do?"],
    current_task := "",
    user_query := "What can you do?",
    relevant_memories := [],
    episodic_context := "",
    semantic_context := "",
    next_agent := "",
    agent_history := [],
    email_results := none,
    calendar_results := none,
    idea_results := none,
    timestamp := 0,
    user_id := "default_user",
    session_id := "session_0",
    errors := [],
    retry_count := 0 }

/-- A model that always requests one more tool call. -/
def loopingLLM : List Message → LLMResponse :=
  fun _ => { content := "still working", tool_calls := [{ name := "search", args := [], id := "c1" }] }

/-- A tool executor that always succeeds with a fixed payload. -/
def okExec : String → List (String × String) → Except String String :=
  fun _ _ => .ok "result"

/-- A session transport that always raises. -/
def failingSession : SessionFn :=
  fun _ _ _ => .error "boom"

/-- A client connected only to the "filesystem" server, with one cached tool. -/
def sampleClient : MCPClient :=
  { sessions := ["filesystem"],
    tools := [("filesystem", [{ name := "read_file", description := some "Read a file",
                                inputSchema := some [("path", "string")] }])] }

/-- A registry holding the one wrapper registered from `sampleClient`. -/
def sampleToolManager : MCPToolManager :=
  (MCPToolManager.register_server_tools { tools_registry := [] } sampleClient "filesystem" none).1

end AgentAru

/-! # Theorems -/

namespace AgentAru

namespace AgentMemoryManager

/-- `_apply_decay` processes records independently, so it maps append to append. -/
theorem apply_decay_append (mgr : AgentMemoryManager) (l1 l2 : List MemRecord) :
    mgr._apply_decay (l1 ++ l2) = mgr._apply_decay l1 ++ mgr._apply_decay l2 := by
  induction l1 with
  | nil => rfl
  | cons m rest ih =>
    cases h : m.timestamp with
    | absent => simp [_apply_decay, h, ih]
    | malformed raw => simp [_apply_decay, h, ih]
    | valid d =>
      by_cases hdd : mgr.decay_days = 0
      · simp [_apply_decay, h, hdd, ih]
      · by_cases hth : mgr.relevance_threshold ≤ m.score.getD 1 * decayFactor mgr.decay_days d
        · simp [_apply_decay, h, hdd, hth, ih]
        · simp [_apply_decay, h, hdd, hth, ih]

end AgentMemoryManager

/-- C3: a record with a parseable timestamp `d` days old gets effective score
`base * max(0.1, 1 - d/decay_days)` and the `decay_factor` recorded; it is kept
by `_apply_decay` iff the decayed score reaches `relevance_threshold` (excluded
when strictly below); a record without a timestamp passes through unchanged.
Stated for an occurrence anywhere in the processed list, for any configuration
with a nonzero decay window (the default is 90). -/
theorem apply_decay_per_record (mgr : AgentMemoryManager)
    (pre suf : List MemRecord) (r : MemRecord)
    (hdd : mgr.decay_days ≠ 0) :
    (r.timestamp = .absent →
      mgr._apply_decay (pre ++ r :: suf) =
        mgr._apply_decay pre ++ r :: mgr._apply_decay suf) ∧
    (∀ d : ℤ, r.timestamp = .valid d →
      (mgr.relevance_threshold ≤
          r.score.getD 1 * AgentMemoryManager.decayFactor mgr.decay_days d →
        mgr._apply_decay (pre ++ r :: suf) =
          mgr._apply_decay pre ++
            { r with
                score := some (r.score.getD 1 *
                  AgentMemoryManager.decayFactor mgr.decay_days d),
                decay_factor := some (AgentMemoryManager.decayFactor mgr.decay_days d) } ::
            mgr._apply_decay suf) ∧
      (r.score.getD 1 * AgentMemoryManager.decayFactor mgr.decay_days d <
          mgr.relevance_threshold →
        mgr._apply_decay (pre ++ r :: suf) =
          mgr._apply_decay pre ++ mgr._apply_decay suf)) := by
  refine ⟨?_, ?_⟩
  · intro habs
    rw [AgentMemoryManager.apply_decay_append]
    simp [AgentMemoryManager._apply_decay, habs]
  · intro d hval
    refine ⟨?_, ?_⟩
    · intro hkeep
      rw [AgentMemoryManager.apply_decay_append]
      simp [AgentMemoryManager._apply_decay, hval, hdd, hkeep]
    · intro hdrop
      rw [AgentMemoryManager.apply_decay_append]
      simp [AgentMemoryManager._apply_decay, hval, hdd, not_le.mpr hdrop]

/-- C3 witness (Scenario D): with the default configuration, a 100-day-old
record of base score 1.0 is decayed to 0.1 and excluded. -/
theorem apply_decay_per_record_witness :
    defaultMemoryManager.decay_days ≠ 0 ∧
    scenarioD.timestamp = .valid 100 ∧
    AgentMemoryManager.decayFactor defaultMemoryManager.decay_days 100 = 1/10 ∧
    scenarioD.score.getD 1 * AgentMemoryManager.decayFactor defaultMemoryManager.decay_days 100 = 1/10 ∧
    defaultMemoryManager._apply_decay [scenarioD] = [] := by
  refine ⟨by with_unfolding_all decide, by with_unfolding_all decide,
    by with_unfolding_all decide, by with_unfolding_all decide, ?_⟩
  have h :=
    ((apply_decay_per_record defaultMemoryManager [] [] scenarioD
        (by with_unfolding_all decide)).2
       100 (by with_unfolding_all decide)).2 (by with_unfolding_all decide)
  simpa using h

/-- C6 (amended): restricted to nonnegative base scores, decay is monotone
when the decay window is positive (such as the default 90 days), and the
decayed score is floored at 0.1 times the base score for any window. -/
theorem decay_monotone_floored_nonneg (dd s : ℚ) (hs : 0 ≤ s) :
    (0 < dd → ∀ d1 d2 : ℤ, d1 ≤ d2 →
      s * AgentMemoryManager.decayFactor dd d2 ≤ s * AgentMemoryManager.decayFactor dd d1) ∧
    ∀ d : ℤ, (1/10) * s ≤ s * AgentMemoryManager.decayFactor dd d := by
  constructor
  · intro hdd d1 d2 h12
    apply mul_le_mul_of_nonneg_left _ hs
    unfold AgentMemoryManager.decayFactor
    apply max_le_max le_rfl
    apply sub_le_sub_left
    exact (div_le_div_iff_of_pos_right hdd).mpr (by exact_mod_cast h12)
  · intro d
    rw [mul_comm (1/10 : ℚ) s]
    apply mul_le_mul_of_nonneg_left _ hs
    exact le_max_left _ _

/-- C6 amended-theorem witness: monotonicity at the default window and the
floor both there and at a negative window. -/
theorem decay_monotone_floored_nonneg_witness :
    (1 : ℚ) * AgentMemoryManager.decayFactor 90 40 ≤
      1 * AgentMemoryManager.decayFactor 90 10 ∧
    (1/10 : ℚ) * 1 ≤ 1 * AgentMemoryManager.decayFactor 90 100 ∧
    (1/10 : ℚ) * 1 ≤ 1 * AgentMemoryManager.decayFactor (-90) 100 := by
  have h90 := decay_monotone_floored_nonneg 90 1 (by with_unfolding_all decide)
  have hneg := decay_monotone_floored_nonneg (-90) 1 (by with_unfolding_all decide)
  exact ⟨h90.1 (by with_unfolding_all decide) 10 40 (by with_unfolding_all decide),
         h90.2 100, hneg.2 100⟩

/-- C6 counterexample: the claim as stated fails on the code. With base score
-1.0 (decay window 90, threshold low enough to keep everything) the 45-day-old
record ends with score -0.5 while the 0-day-old one keeps -1.0 — the older
record's score is strictly greater — and the 0-day-old record's decayed score
-1.0 lies strictly below 0.1 × (-1.0); with a (configurable) negative decay
window -90 the same failure occurs even at base score 1.0 (the 45-day-old
record is boosted to 1.5). -/
theorem decay_monotone_claim_cex :
    ((cexManager._apply_decay [cexOlder]).map (fun r => r.score.getD 1) = [-(1/2)] ∧
     (cexManager._apply_decay [cexYounger]).map (fun r => r.score.getD 1) = [-1] ∧
     ¬ ((-(1/2) : ℚ) ≤ -1)) ∧
    (¬ ((1/10 : ℚ) * (-1) ≤ -1)) ∧
    ((cexManagerNegWindow._apply_decay [cexPosOlder]).map (fun r => r.score.getD 1) = [3/2] ∧
     (cexManagerNegWindow._apply_decay [cexPosYounger]).map (fun r => r.score.getD 1) = [1] ∧
     ¬ ((3/2 : ℚ) ≤ 1)) := by
  with_unfolding_all decide

/-- C10: when the memory backend failed to initialize (`self.memory is None`),
`add_interaction` returns `""` and `search_memories` returns `[]`, for every
input and every backend behaviour, without raising. -/
theorem memory_unavailable_degraded (mgr : AgentMemoryManager)
    (hmem : mgr.memory_available = false) :
    (∀ (backend : Except String String) (messages : List Message)
       (metadata : List (String × String)),
        mgr.add_interaction backend messages metadata = "") ∧
    (∀ (backend : Except String (List MemRecord)) (memory_type : Option String)
       (limit : ℕ) (apply_decay : Bool),
        mgr.search_memories backend memory_type limit apply_decay = []) := by
  constructor
  · intro backend messages metadata
    simp [AgentMemoryManager.add_interaction, hmem]
  · intro backend memory_type limit apply_decay
    simp [AgentMemoryManager.search_memories, hmem]

/-- C10 witness: a manager whose backend initialization failed. -/
theorem memory_unavailable_degraded_witness :
    ({ memory_available := false, decay_days := 90,
       relevance_threshold := 3/10 : AgentMemoryManager }).add_interaction
        (.ok "id-1") [Message.human "hi"] [("type", "episodic")] = "" ∧
    ({ memory_available := false, decay_days := 90,
       relevance_threshold := 3/10 : AgentMemoryManager }).search_memories
        (.ok [scenarioD]) (some "semantic") 5 true = [] := by
  have h := memory_unavailable_degraded
    { memory_available := false, decay_days := 90, relevance_threshold := 3/10 } rfl
  exact ⟨h.1 (.ok "id-1") [Message.human "hi"] [("type", "episodic")],
         h.2 (.ok [scenarioD]) (some "semantic") 5 true⟩

/-- C1: the routing decision written by `SupervisorAgent.process` is always a
member of {"email_agent", "calendar_agent", "idea_agent", "end"}; a model
output whose trimmed, lower-cased form is outside that set (the empty string
included) is replaced by "end"; and on an internal failure the method returns
the state with one appended error string and decision "end" instead of raising. -/
theorem supervisor_routing_decision_valid (memories : List MemRecord)
    (llm : Except String String) (state : AgentState) :
    (SupervisorAgent.process memories llm state).next_agent ∈ SupervisorAgent.valid_agents ∧
    (∀ content : String, llm = .ok content →
      content.trim.toLower ∉ SupervisorAgent.valid_agents →
        (SupervisorAgent.process memories llm state).next_agent = "end") ∧
    (∀ e : String, llm = .error e →
      SupervisorAgent.process memories llm state =
        { state with
            errors := state.errors ++ ["Supervisor error: " ++ e],
            next_agent := "end" }) := by
  refine ⟨?_, ?_, ?_⟩
  · cases llm with
    | error e => simp [SupervisorAgent.process, SupervisorAgent.valid_agents]
    | ok content =>
      simp only [SupervisorAgent.process]
      split
      · assumption
      · simp [SupervisorAgent.valid_agents]
  · intro content hok hbad
    subst hok
    simp [SupervisorAgent.process, hbad]
  · intro e herr
    subst herr
    rfl

/-- C1 witness: an upper-case model reply normalizes into the set, an
off-vocabulary reply falls back to "end", and a raised model call yields the
error-appending outcome. -/
theorem supervisor_routing_decision_valid_witness :
    (SupervisorAgent.process [] (.ok " EMAIL_AGENT ") sampleState).next_agent ∈
      SupervisorAgent.valid_agents ∧
    (SupervisorAgent.process [] (.ok "banana") sampleState).next_agent = "end" ∧
    SupervisorAgent.process [] (.error "boom") sampleState =
      { sampleState with
          errors := sampleState.errors ++ ["Supervisor error: boom"],
          next_agent := "end" } := by
  refine ⟨(supervisor_routing_decision_valid [] (.ok " EMAIL_AGENT ") sampleState).1,
    (supervisor_routing_decision_valid [] (.ok "banana") sampleState).2.1 "banana" rfl
      (by with_unfolding_all decide),
    (supervisor_routing_decision_valid [] (.error "boom") sampleState).2.2 "boom" rfl⟩

/-- C9: on a successful routing step `SupervisorAgent.process` appends exactly
one assistant message "Routing to: <decision>", appends "supervisor" to the
handler history, stores the retrieved memories in `relevant_memories`, and
leaves every other field (besides the decision itself) unchanged; in particular
a fresh turn ends with handler history ["supervisor"]. -/
theorem supervisor_success_side_effects (memories : List MemRecord)
    (content : String) (state : AgentState) :
    (SupervisorAgent.process memories (.ok content) state).messages =
      state.messages ++
        [Message.ai ("Routing to: " ++
          (SupervisorAgent.process memories (.ok content) state).next_agent) []] ∧
    (SupervisorAgent.process memories (.ok content) state).agent_history =
      state.agent_history ++ ["supervisor"] ∧
    (SupervisorAgent.process memories (.ok content) state).relevant_memories = memories ∧
    (SupervisorAgent.process memories (.ok content) state).errors = state.errors ∧
    (SupervisorAgent.process memories (.ok content) state).email_results = state.email_results ∧
    (SupervisorAgent.process memories (.ok content) state).calendar_results = state.calendar_results ∧
    (SupervisorAgent.process memories (.ok content) state).idea_results = state.idea_results ∧
    (SupervisorAgent.process memories (.ok content) state).user_query = state.user_query ∧
    (SupervisorAgent.process memories (.ok content) state).current_task = state.current_task ∧
    (SupervisorAgent.process memories (.ok content) state).episodic_context = state.episodic_context ∧
    (SupervisorAgent.process memories (.ok content) state).semantic_context = state.semantic_context ∧
    (SupervisorAgent.process memories (.ok content) state).user_id = state.user_id ∧
    (SupervisorAgent.process memories (.ok content) state).session_id = state.session_id ∧
    (SupervisorAgent.process memories (.ok content) state).retry_count = state.retry_count ∧
    (SupervisorAgent.process memories (.ok content) state).timestamp = state.timestamp ∧
    (state.agent_history = [] →
      (SupervisorAgent.process memories (.ok content) state).agent_history = ["supervisor"]) := by
  refine ⟨?_, ?_, ?_, ?_, ?_, ?_, ?_, ?_, ?_, ?_, ?_, ?_, ?_, ?_, ?_, ?_⟩ <;>
    simp only [SupervisorAgent.process] <;> try rfl
  intro h
  simp [h]

/-- C9 witness (Scenario A): on a fresh turn whose model reply is "end", the
handler history becomes exactly ["supervisor"]. -/
theorem supervisor_success_side_effects_witness :
    (SupervisorAgent.process [] (.ok "end") sampleState).agent_history = ["supervisor"] ∧
    (SupervisorAgent.process [] (.ok "end") sampleState).messages =
      sampleState.messages ++ [Message.ai "Routing to: end" []] := by
  have h := supervisor_success_side_effects [] "end" sampleState
  refine ⟨h.2.2.2.2.2.2.2.2.2.2.2.2.2.2.2 rfl, ?_⟩
  have hm := h.1
  have hn : (SupervisorAgent.process [] (.ok "end") sampleState).next_agent = "end" := by
    with_unfolding_all decide
  rw [hn] at hm
  exact hm

/-- C5: when the model invocation inside `CalendarAgent.process` fails, the
method appends exactly one domain-tagged error string, clears the routing
decision, changes nothing else (no message, no result slot, no history entry),
and returns the state instead of raising. -/
theorem calendar_process_failure_isolated (prefs : List MemRecord)
    (e : String) (state : AgentState) :
    (CalendarAgent.process prefs (.error e) state).errors =
      state.errors ++ ["Calendar agent error: " ++ e] ∧
    (CalendarAgent.process prefs (.error e) state).next_agent = "" ∧
    (CalendarAgent.process prefs (.error e) state).messages = state.messages ∧
    (CalendarAgent.process prefs (.error e) state).agent_history = state.agent_history ∧
    (CalendarAgent.process prefs (.error e) state).calendar_results = state.calendar_results ∧
    (CalendarAgent.process prefs (.error e) state).email_results = state.email_results ∧
    (CalendarAgent.process prefs (.error e) state).idea_results = state.idea_results ∧
    (CalendarAgent.process prefs (.error e) state).relevant_memories = state.relevant_memories ∧
    (CalendarAgent.process prefs (.error e) state).user_query = state.user_query ∧
    (CalendarAgent.process prefs (.error e) state).current_task = state.current_task ∧
    (CalendarAgent.process prefs (.error e) state).episodic_context = state.episodic_context ∧
    (CalendarAgent.process prefs (.error e) state).semantic_context = state.semantic_context ∧
    (CalendarAgent.process prefs (.error e) state).user_id = state.user_id ∧
    (CalendarAgent.process prefs (.error e) state).session_id = state.session_id ∧
    (CalendarAgent.process prefs (.error e) state).retry_count = state.retry_count ∧
    (CalendarAgent.process prefs (.error e) state).timestamp = state.timestamp := by
  refine ⟨?_, ?_, ?_, ?_, ?_, ?_, ?_, ?_, ?_, ?_, ?_, ?_, ?_, ?_, ?_, ?_⟩ <;> rfl

/-- C5 witness: a concrete failing model call on a fresh state. -/
theorem calendar_process_failure_isolated_witness :
    (CalendarAgent.process [] (.error "timeout") sampleState).errors =
      ["Calendar agent error: timeout"] ∧
    (CalendarAgent.process [] (.error "timeout") sampleState).next_agent = "" ∧
    (CalendarAgent.process [] (.error "timeout") sampleState).calendar_results = none := by
  have h := calendar_process_failure_isolated [] "timeout" sampleState
  exact ⟨by simpa using h.1, h.2.1, by simpa using h.2.2.2.2.1⟩

end AgentAru

namespace AgentAru

namespace RunAgent

/-- The loop consumes at most `fuel` model responses. -/
theorem agentLoop_length_le (llm : List Message → LLMResponse)
    (execTool : String → List (String × String) → Except String String) :
    ∀ (fuel : ℕ) (messages : List Message) (last : Option LLMResponse),
      ((agentLoop llm execTool fuel messages last).1).length ≤ fuel := by
  intro fuel
  induction fuel with
  | zero => intro messages last; simp [agentLoop]
  | succ n ih =>
    intro messages last
    simp only [agentLoop]
    split
    · simp
    · simpa using Nat.succ_le_succ (ih _ _)

/-- Against a model that always requests tools, the loop runs exactly `fuel`
round-trips and answers with the text of its last response. -/
theorem agentLoop_always_tools (llm : List Message → LLMResponse)
    (execTool : String → List (String × String) → Except String String)
    (h : ∀ messages, (llm messages).tool_calls ≠ []) :
    ∀ (fuel : ℕ) (messages : List Message) (last : Option LLMResponse),
      ((agentLoop llm execTool fuel messages last).1).length = fuel ∧
      (agentLoop llm execTool fuel messages last).2 =
        (((agentLoop llm execTool fuel messages last).1).getLastD
          (last.getD { content := "", tool_calls := [] })).content := by
  intro fuel
  induction fuel with
  | zero =>
    intro messages last
    cases last <;> simp [agentLoop]
  | succ n ih =>
    intro messages last
    simp only [agentLoop]
    rw [if_neg (h messages)]
    have hrec := ih (messages ++ [Message.ai (llm messages).content (llm messages).tool_calls]
      ++ ((llm messages).tool_calls).map (toolResultMessage execTool)) (some (llm messages))
    refine ⟨by simpa using hrec.1, ?_⟩
    simp only [List.getLastD_cons, Option.getD_some]
    exact hrec.2

end RunAgent

/-- C2: for every behaviour of the model and of the tool executor, one turn of
run_agent.py performs at most `max_iterations = 5` model round-trips; when the
model requests tools on every response, the loop runs exactly 5 round-trips and
the turn's answer is the text of the last model response. -/
theorem tool_loop_terminates_within_cap (llm : List Message → LLMResponse)
    (execTool : String → List (String × String) → Except String String)
    (user_input : String) :
    ((RunAgent.run_turn llm execTool user_input).1).length ≤ RunAgent.max_iterations ∧
    ((∀ messages, (llm messages).tool_calls ≠ []) →
      ((RunAgent.run_turn llm execTool user_input).1).length = RunAgent.max_iterations ∧
      (RunAgent.run_turn llm execTool user_input).2 =
        (((RunAgent.run_turn llm execTool user_input).1).getLastD
          { content := "", tool_calls := [] }).content) := by
  constructor
  · exact RunAgent.agentLoop_length_le llm execTool RunAgent.max_iterations
      [Message.human user_input] none
  · intro h
    have hall := RunAgent.agentLoop_always_tools llm execTool h RunAgent.max_iterations
      [Message.human user_input] none
    simpa [RunAgent.run_turn] using hall

/-- C2 witness: a model that always asks for one more tool call is cut off
after exactly 5 round-trips and its last text is used as the answer. -/
theorem tool_loop_terminates_within_cap_witness :
    ((RunAgent.run_turn loopingLLM okExec "hello").1).length = 5 ∧
    (RunAgent.run_turn loopingLLM okExec "hello").2 = "still working" := by
  have h := (tool_loop_terminates_within_cap loopingLLM okExec "hello").2
    (fun messages => by simp [loopingLLM])
  refine ⟨h.1, ?_⟩
  rw [h.2]
  with_unfolding_all decide

end AgentAru

namespace AgentAru

/-- C7: calling a tool through a server name that is not in the client's
session map fails with the explicit "Not connected to server" error, whatever
the session transport would do — the session is never consulted; a connected
server always produces a result dict (`ok`) instead of an exception; and after
a successful disconnect the server name is no longer in the session map. -/
theorem call_tool_requires_connection (c : MCPClient) (session : SessionFn)
    (server_name tool_name : String) (arguments : List (String × String)) :
    (server_name ∉ c.sessions →
      c.call_tool session server_name tool_name arguments =
        .error ("Not connected to server: " ++ server_name)) ∧
    (server_name ∈ c.sessions →
      ∃ r, c.call_tool session server_name tool_name arguments = .ok r) ∧
    server_name ∉ (c.disconnect_server true server_name).sessions := by
  refine ⟨?_, ?_, ?_⟩
  · intro hns
    simp [MCPClient.call_tool, hns]
  · intro hs
    refine ⟨(match session server_name tool_name arguments with
      | .error e => .err e
      | .ok (.withContent items isError) => .ok_content items isError
      | .ok (.plain raw) => .ok_plain raw), ?_⟩
    simp [MCPClient.call_tool, hs]
  · by_cases hs : server_name ∈ c.sessions
    · simp [MCPClient.disconnect_server, hs, List.mem_filter]
    · simp [MCPClient.disconnect_server, hs]

/-- C7 witness: `sampleClient` is connected only to "filesystem", so a tool
call through "web-search" raises the explicit not-connected error. -/
theorem call_tool_requires_connection_witness :
    sampleClient.call_tool failingSession "web-search" "web_search" [] =
      .error "Not connected to server: web-search" := by
  have h := (call_tool_requires_connection sampleClient failingSession
    "web-search" "web_search" []).1 (by with_unfolding_all decide)
  exact h

/-- C4: `execute_tool` on an unregistered name returns the
`Error: Tool '<name>' not found` text and never raises; on a registered tool
whose session invocation raises, the failure is caught and an error-tagged
text containing the failure message is returned (also when the failure is the
client's own not-connected error). -/
theorem execute_tool_error_tagged (m : MCPToolManager) (c : MCPClient)
    (session : SessionFn) (tool_name : String) (arguments : List (String × String)) :
    (m.get_tool_by_name tool_name = none →
      m.execute_tool c session tool_name arguments =
        "Error: Tool \'" ++ tool_name ++ "\' not found") ∧
    (∀ t : MCPToolWrapper, m.get_tool_by_name tool_name = some t →
      t.server_name ∈ c.sessions →
      ∀ e : String, session t.server_name t.tool_name arguments = .error e →
        m.execute_tool c session tool_name arguments = "Error: " ++ e) ∧
    (∀ t : MCPToolWrapper, m.get_tool_by_name tool_name = some t →
      t.server_name ∉ c.sessions →
        m.execute_tool c session tool_name arguments =
          "Error: " ++ ("Not connected to server: " ++ t.server_name)) := by
  refine ⟨?_, ?_, ?_⟩
  · intro hn
    simp [MCPToolManager.execute_tool, hn]
  · intro t ht hconn e herr
    simp [MCPToolManager.execute_tool, ht, MCPToolWrapper.arun, MCPClient.call_tool,
      hconn, herr]
  · intro t ht hnc
    simp [MCPToolManager.execute_tool, ht, MCPToolWrapper.arun, MCPClient.call_tool, hnc]

/-- C4 witness: the sample registry holds only "read_file"; a lookup of
"write_file" yields the not-found error text, and a raising executor on
"read_file" yields an error-tagged text with the failure message. -/
theorem execute_tool_error_tagged_witness :
    sampleToolManager.execute_tool sampleClient failingSession "write_file" [] =
      "Error: Tool \'write_file\' not found" ∧
    sampleToolManager.execute_tool sampleClient failingSession "read_file"
        [("path", "/tmp/x")] = "Error: boom" := by
  constructor
  · exact (execute_tool_error_tagged sampleToolManager sampleClient failingSession
      "write_file" []).1 (by with_unfolding_all decide)
  · exact (execute_tool_error_tagged sampleToolManager sampleClient failingSession
      "read_file" [("path", "/tmp/x")]).2.1
      { name := "read_file", description := "Read a file", server_name := "filesystem",
        tool_name := "read_file", input_schema := [("path", "string")] }
      (by with_unfolding_all decide) (by with_unfolding_all decide) "boom" rfl

/-- A Python dict assignment is idempotent on the association-list model. -/
theorem setAssoc_idem {α : Type} (l : List (String × α)) (k : String) (v : α) :
    setAssoc (setAssoc l k v) k v = setAssoc l k v := by
  induction l with
  | nil => simp [setAssoc]
  | cons p rest ih =>
    by_cases h : p.1 = k
    · simp [setAssoc, h]
    · simp [setAssoc, h, ih]

/-- C8: registering a connected server's tools twice with the same server name
and prefix leaves the registry exactly as after one registration — the entry is
replaced, not appended — so `get_tools` exposes the same named capability set. -/
theorem register_server_tools_idempotent (m : MCPToolManager) (c : MCPClient)
    (server_name : String) (pre : Option String) :
    (MCPToolManager.register_server_tools
        (MCPToolManager.register_server_tools m c server_name pre).1
        c server_name pre).1 =
      (MCPToolManager.register_server_tools m c server_name pre).1 ∧
    (((MCPToolManager.register_server_tools
        (MCPToolManager.register_server_tools m c server_name pre).1
        c server_name pre).1.get_tools none none).map (fun t => t.name) =
      ((MCPToolManager.register_server_tools m c server_name pre).1.get_tools
        none none).map (fun t => t.name)) := by
  have h1 : (MCPToolManager.register_server_tools
      (MCPToolManager.register_server_tools m c server_name pre).1
      c server_name pre).1 =
      (MCPToolManager.register_server_tools m c server_name pre).1 := by
    simp only [MCPToolManager.register_server_tools]
    congr 1
    exact setAssoc_idem _ _ _
  exact ⟨h1, by rw [h1]⟩

end AgentAru
